import Mathlib

/-!
Verification of the SPIN Promela test-generation pipeline (`testbuilder.py`).

The script works over a flat working directory and a target test tree. We
embed file names as `List Char` (`FName`), directory listings as lists of
names (or of name/content pairs where contents matter), and each operation
of the script (`clean`, `zero`, `generate`, `copy`, and the configuration
loading in `main`) as a pure function over those states. External processes
(the SPIN checker, the test generator) are recorded as invocation data, not
executed.
-/

open List

/-- File names (and path strings) as lists of characters; Python compares
and sorts strings lexicographically by code point, which is the
lexicographic order on `List Char`. -/
abbrev FName := List Char

/-- A directory entry: file name together with its contents. -/
abbrev Entry := FName × FName

/-- Glob matching: `glob.glob (pre ++ "*" ++ suf)` in a flat directory matches exactly the
names of the form `pre ++ mid ++ suf`: equivalently, `pre` is a prefix,
`suf` is a suffix, and the name is long enough that the two do not
overlap. -/
def globMatch (pre suf name : FName) : Bool :=
  pre.isPrefixOf name && suf.isSuffixOf name &&
    decide (pre.length + suf.length ≤ name.length)

/-- Number of files in directory `d` matching `model*.trail`
(`len(glob.glob(model + '*.trail'))`, testbuilder.py line 88 and lines
41/44). -/
def trailCount (model : FName) (d : List FName) : Nat :=
  (d.filter (fun f => globMatch model (".trail").toList f)).length

/-- The files `clean` removes (testbuilder.py lines 40-47): the `pan`
binary, `model*.trail`, `model*.spn`, and either `tr-model.c` (when the
current trail count is exactly 1) or `tr-model-*.c` (otherwise). -/
def cleanTargets (model : FName) (d : List FName) : List FName :=
  let pans := d.filter (fun f => decide (f = ("pan").toList))
  let trails := d.filter (fun f => globMatch model (".trail").toList f)
  let spns := d.filter (fun f => globMatch model (".spn").toList f)
  let trsrc :=
    if trails.length = 1 then
      d.filter (fun f => decide (f = ("tr-").toList ++ model ++ (".c").toList))
    else
      d.filter (fun f => globMatch (("tr-").toList ++ model ++ ("-").toList) (".c").toList f)
  pans ++ trails ++ spns ++ trsrc

/-- The operation `clean model` (testbuilder.py lines 37-49): removes each globbed file
from the current directory, leaving the rest. -/
def clean (model : FName) (d : List FName) : List FName :=
  d.filter (fun f => decide (f ∉ cleanTargets model d))

/-- A build manifest (`model-0.yml`): the `source` list of path strings,
plus all other YAML keys, which the script passes through unmodified. -/
structure Manifest where
  source : List FName
  rest : List (String × String)
deriving DecidableEq

/-- The operation `zero modelfile` (testbuilder.py lines 52-60): replaces the manifest's
`source` list wholesale with the single baseline testcase source path,
leaving every other key as loaded. -/
def zero (man : Manifest) : Manifest :=
  { man with source := [("testsuites/validation/ts-model-0.c").toList] }

/-- The five required input files of a model together with the exact
message `generate` prints when each is missing (testbuilder.py lines
66-81). Note the run-header's message is the same string as the Promela
description file's. -/
def requiredFiles (model : FName) : List (FName × String) :=
  [(model ++ (".pml").toList, "Promela file does not exist for model"),
   (model ++ ("-pre.h").toList, "Preconditions file does not exist for model"),
   (model ++ ("-post.h").toList, "Postconditions file does not exist for model"),
   (model ++ ("-run.h").toList, "Promela file does not exist for model"),
   (model ++ ("-rfn.yml").toList, "Refinement file does not exist for model")]

/-- The readiness check at the start of `generate` (testbuilder.py lines
65-83): five independent `os.path.isfile` tests, each printing its message
and clearing `ready` when its file is absent; `present` is the
file-existence predicate of the working directory. Returns the printed
messages in order and the final `ready` flag. -/
def readinessCheck (present : FName → Bool) (model : FName) : List String × Bool :=
  let m1 : List String :=
    if present (model ++ (".pml").toList) then [] else ["Promela file does not exist for model"]
  let m2 : List String :=
    if present (model ++ ("-pre.h").toList) then [] else ["Preconditions file does not exist for model"]
  let m3 : List String :=
    if present (model ++ ("-post.h").toList) then [] else ["Postconditions file does not exist for model"]
  let m4 : List String :=
    if present (model ++ ("-run.h").toList) then [] else ["Promela file does not exist for model"]
  let m5 : List String :=
    if present (model ++ ("-rfn.yml").toList) then [] else ["Refinement file does not exist for model"]
  (m1 ++ m2 ++ m3 ++ m4 ++ m5,
   present (model ++ (".pml").toList) && present (model ++ ("-pre.h").toList) &&
   present (model ++ ("-post.h").toList) && present (model ++ ("-run.h").toList) &&
   present (model ++ ("-rfn.yml").toList))

/-- The indexed spin-summary file name `model-<i>.spn` produced for the
1-based trail selector `i+1` (testbuilder.py lines 94-95). -/
def spnIndexed (model : FName) (i : Nat) : FName :=
  model ++ ('-' :: (toString i).toList) ++ (".spn").toList

/-- Observable outcome of one `generate` run: the messages printed by the
readiness check, whether the checker's enumeration run (`spin -DTEST_GEN
-run ...`) was spawned, the replay invocations (`spin -T -t[k] model.pml >
out`, recorded as the optional 1-based selector `k` and the redirect
target), the generator invocations (`spin2test model [offset]`), and the
explicit exit (`some c` for `sys.exit(c)`, `none` for a normal return). -/
structure GenRun where
  messages : List String
  checkerRun : Bool
  replays : List (Option Nat × FName)
  genCalls : List (FName × Option Nat)
  exitCode : Option Nat
deriving DecidableEq

/-- The operation `generate model testgen` (testbuilder.py lines 63-96). `dirAfter` is
the working directory listing after the checker's enumeration run (the
checker, an external process, is what writes the trail files). -/
def generate (present : FName → Bool) (model : FName) (dirAfter : List FName) : GenRun :=
  let rc := readinessCheck present model
  if rc.2 = false then
    { messages := rc.1, checkerRun := false, replays := [], genCalls := [],
      exitCode := some 1 }
  else
    let n := trailCount model dirAfter
    if n = 1 then
      { messages := rc.1, checkerRun := true,
        replays := [(none, model ++ (".spn").toList)],
        genCalls := [(model, none)], exitCode := some 0 }
    else
      { messages := rc.1, checkerRun := true,
        replays := (List.range n).map (fun i => (some (i + 1), spnIndexed model i)),
        genCalls := (List.range n).map (fun i => (model, some i)),
        exitCode := none }

/-- Does `f` match `tr-model*.c`? -/
def trcPat (model f : FName) : Bool := globMatch (("tr-").toList ++ model) (".c").toList f

/-- Does `f` match `tr-model*.h`? -/
def trhPat (model f : FName) : Bool := globMatch (("tr-").toList ++ model) (".h").toList f

/-- Does `f` match `tc-model*.c`? -/
def tccPat (model f : FName) : Bool := globMatch (("tc-").toList ++ model) (".c").toList f

/-- Does `f` match any of the three test-file patterns `copy` works
with? -/
def copyPat (model f : FName) : Bool := trcPat model f || trhPat model f || tccPat model f

/-- Writing one file into a directory (`shutil.copyfile` destination
semantics): overwrite the entry of the same name if present, otherwise add
the file. -/
def writeFile (t : List Entry) (e : Entry) : List Entry :=
  if t.any (fun x => decide (x.1 = e.1)) then
    t.map (fun x => if x.1 = e.1 then e else x)
  else
    t ++ [e]

/-- Python's `sorted(list(set(...)))`: deduplicate, then sort lexicographically. -/
def sortedSet (l : List FName) : List FName :=
  List.insertionSort (· ≤ ·) l.dedup

/-- The operation `copy model codedir rtems modfile` (testbuilder.py lines 99-130). The
configuration points `codedir` (`testcode`) at the target tree's
`testsuites/validation` directory, the same directory the new files are
copied into (`rtems + "testsuites/validation/"`), so both phases act on
one directory listing, `target`; `work` is the working directory. The
three steps, in source order: delete every `tr-model*.c` / `tr-model*.h` /
`tc-model*.c` file in the target, copy every such file from `work` into
the target, and merge `'testsuites/validation/' + file` for the globbed
`.c` files into the manifest's `source` set, writing it back sorted. -/
def copy (model : FName) (work target : List Entry) (man : Manifest) :
    List Entry × Manifest :=
  let target1 := target.filter (fun e => !(copyPat model e.1))
  let newFiles := work.filter (fun e => trcPat model e.1) ++
    work.filter (fun e => trhPat model e.1) ++
    work.filter (fun e => tccPat model e.1)
  let target2 := newFiles.foldl writeFile target1
  let cFiles := work.filter (fun e => trcPat model e.1) ++
    work.filter (fun e => tccPat model e.1)
  let newSource :=
    sortedSet (man.source ++ cFiles.map (fun e => ("testsuites/validation/").toList ++ e.1))
  (target2, { man with source := newSource })

/-- The configuration document `testbuilder.yml` as loaded: each key is
either absent (`none`) or holds a string value. -/
structure ConfigDoc where
  spin2test : Option String
  rtems : Option String
  rsb : Option String
  simulator : Option String
  testyaml : Option String
  testcode : Option String
  testexe : Option String
deriving DecidableEq

/-- A fully extracted configuration. -/
structure Config where
  spin2test : String
  rtems : String
  rsb : String
  simulator : String
  testyaml : String
  testcode : String
  testexe : String
deriving DecidableEq

/-- Outcome of the configuration phase of `main`: a `KeyError` crash on a
missing key, the "Please configure testbuilder.yml" / `sys.exit(1)` path,
or success, after which `main` goes on to dispatch the requested verb. -/
inductive StartupResult where
  | keyError : String → StartupResult
  | configError : StartupResult
  | ok : Config → StartupResult
deriving DecidableEq

/-- The configuration phase of `main` (testbuilder.py lines 152-165): each
`config['k']` lookup raises `KeyError` when the key is absent; then
`if not (spin2test and rtems and rsb and simulator and testyaml and
testexe)` — note `testcode` is read but not tested — prints the
configuration error and exits 1. An empty string is falsy in Python. -/
def loadConfig (d : ConfigDoc) : StartupResult :=
  match d.spin2test with
  | none => .keyError ("spin2test")
  | some spin2test =>
  match d.rtems with
  | none => .keyError ("rtems")
  | some rtems =>
  match d.rsb with
  | none => .keyError ("rsb")
  | some rsb =>
  match d.simulator with
  | none => .keyError ("simulator")
  | some simulator =>
  match d.testyaml with
  | none => .keyError ("testyaml")
  | some testyaml =>
  match d.testcode with
  | none => .keyError ("testcode")
  | some testcode =>
  match d.testexe with
  | none => .keyError ("testexe")
  | some testexe =>
  if spin2test ≠ "" ∧ rtems ≠ "" ∧ rsb ≠ "" ∧ simulator ≠ "" ∧ testyaml ≠ "" ∧ testexe ≠ "" then
    .ok ⟨spin2test, rtems, rsb, simulator, testyaml, testcode, testexe⟩
  else
    .configError

/-- Did the configuration phase succeed (so that `main` dispatches the
verb)? -/
def StartupResult.dispatches : StartupResult → Bool
  | .ok _ => true
  | _ => false

/-! ### Helper lemmas -/

lemma globMatch_eq_true {pre suf name : FName} :
    globMatch pre suf name = true ↔
      pre <+: name ∧ suf <:+ name ∧ pre.length + suf.length ≤ name.length := by
  simp [globMatch, List.isPrefixOf_iff_prefix, List.isSuffixOf_iff_suffix, and_assoc]

lemma globMatch_parts (pre mid suf : FName) :
    globMatch pre suf (pre ++ mid ++ suf) = true := by
  refine globMatch_eq_true.mpr ⟨⟨mid ++ suf, by simp⟩, ⟨pre ++ mid, by simp⟩, by simp⟩

lemma pfx_head_eq (a b : Char) (l₁ l₂ f : FName)
    (h₁ : (a :: l₁) <+: f) (h₂ : (b :: l₂) <+: f) : a = b := by
  obtain ⟨t₁, e₁⟩ := h₁
  obtain ⟨t₂, e₂⟩ := h₂
  rw [← e₁] at e₂
  simp only [List.cons_append, List.cons.injEq] at e₂
  exact e₂.1.symm

lemma pfx_second_eq (a b c d : Char) (l₁ l₂ f : FName)
    (h₁ : (a :: b :: l₁) <+: f) (h₂ : (c :: d :: l₂) <+: f) : a = c ∧ b = d := by
  obtain ⟨t₁, e₁⟩ := h₁
  obtain ⟨t₂, e₂⟩ := h₂
  rw [← e₁] at e₂
  simp only [List.cons_append, List.cons.injEq] at e₂
  exact ⟨e₂.1.symm, e₂.2.1.symm⟩

lemma sfx_last_eq (a b : Char) (l₁ l₂ f : FName)
    (h₁ : (l₁ ++ [a]) <:+ f) (h₂ : (l₂ ++ [b]) <:+ f) : a = b := by
  rw [← List.reverse_prefix] at h₁ h₂
  simp only [List.reverse_append, List.reverse_cons, List.reverse_nil, List.nil_append,
    List.singleton_append] at h₁ h₂
  exact pfx_head_eq a b _ _ _ h₁ h₂

lemma mem_sortedSet {a : FName} {l : List FName} : a ∈ sortedSet l ↔ a ∈ l := by
  unfold sortedSet
  rw [List.mem_insertionSort, List.mem_dedup]

lemma sortedSet_sorted (l : List FName) : List.Sorted (· ≤ ·) (sortedSet l) :=
  List.sorted_insertionSort _ _

lemma sortedSet_nodup (l : List FName) : (sortedSet l).Nodup :=
  (List.perm_insertionSort _ _).nodup_iff.mpr (List.nodup_dedup l)

lemma sortedSet_congr {l₁ l₂ : List FName} (h : ∀ a, a ∈ l₁ ↔ a ∈ l₂) :
    sortedSet l₁ = sortedSet l₂ := by
  apply List.eq_of_perm_of_sorted _ (sortedSet_sorted l₁) (sortedSet_sorted l₂)
  apply List.Subperm.antisymm
  · exact (sortedSet_nodup l₁).subperm
      (fun a ha => mem_sortedSet.mpr ((h a).mp (mem_sortedSet.mp ha)))
  · exact (sortedSet_nodup l₂).subperm
      (fun a ha => mem_sortedSet.mpr ((h a).mpr (mem_sortedSet.mp ha)))

/-! ### C8, C6 -/

/-- C8: for every loadable Manifest, the zero/reset operation replaces the
source list wholesale with the single-element list holding only the
baseline test-suite source path, discarding every previously tracked
entry, while all other Manifest fields are preserved. -/
theorem c8_zero_resets_source (man : Manifest) :
    (zero man).source = [("testsuites/validation/ts-model-0.c").toList] ∧
    (zero man).rest = man.rest :=
  ⟨rfl, rfl⟩

/-- C6: after every Manifest-writing operation (the copy merge and the
zero reset), the Manifest's source list is deduplicated and
lexicographically sorted, regardless of the order or duplication of the
previously persisted list and of the newly added paths. -/
theorem c6_manifest_sorted_nodup (model : FName) (work target : List Entry)
    (man man₂ : Manifest) :
    List.Sorted (· ≤ ·) ((copy model work target man).2.source) ∧
    ((copy model work target man).2.source).Nodup ∧
    List.Sorted (· ≤ ·) ((zero man₂).source) ∧ ((zero man₂).source).Nodup := by
  refine ⟨sortedSet_sorted _, sortedSet_nodup _, List.sorted_singleton _, by simp [zero]⟩

/-! ### C3 -/

/-- C3 counterexample: a configuration document whose test-source
directory (`testcode`) is present but empty, with all other fields
non-empty, passes the startup check and the program goes on to dispatch
the verb, contradicting the claim that every configuration document with
an empty value for any required field is rejected at startup. -/
theorem c3_counterexample :
    (ConfigDoc.mk (some ("s")) (some ("r")) (some ("b")) (some ("sim")) (some ("y"))
      (some ("")) (some ("e"))).testcode = some ("") ∧
    loadConfig (ConfigDoc.mk (some ("s")) (some ("r")) (some ("b")) (some ("sim")) (some ("y"))
      (some ("")) (some ("e"))) = .ok (Config.mk ("s") ("r") ("b") ("sim") ("y") ("") ("e")) := by
  constructor
  · rfl
  · decide

/-- C3 amended: the startup configuration phase refuses to dispatch a verb
whenever any of the seven fields is missing from the document (the lookup
raises a key error), or whenever any of the six fields actually tested —
generator path, target-tree root, build-tool root, simulator command,
Manifest path and test-executable, i.e. all but the test-source directory
`testcode` — holds an empty value (the configuration-error exit). An
empty-but-present `testcode` is not detected. -/
theorem c3_amended_startup_check (d : ConfigDoc)
    (h : d.spin2test = none ∨ d.rtems = none ∨ d.rsb = none ∨ d.simulator = none ∨
      d.testyaml = none ∨ d.testcode = none ∨ d.testexe = none ∨
      d.spin2test = some ("") ∨ d.rtems = some ("") ∨ d.rsb = some ("") ∨
      d.simulator = some ("") ∨ d.testyaml = some ("") ∨ d.testexe = some ("")) :
    (loadConfig d).dispatches = false := by
  obtain ⟨f₁, f₂, f₃, f₄, f₅, f₆, f₇⟩ := d
  cases f₁ <;> cases f₂ <;> cases f₃ <;> cases f₄ <;> cases f₅ <;> cases f₆ <;> cases f₇ <;>
    try rfl
  simp only [Option.some.injEq, reduceCtorEq, false_or] at h
  rcases h with h | h | h | h | h | h <;> subst h <;>
    simp [loadConfig, StartupResult.dispatches]

/-- Witness for C3's amended theorem at a concrete document with an empty
Manifest path. -/
theorem c3_amended_witness :
    ((ConfigDoc.mk (some ("a")) (some ("b")) (some ("c")) (some ("d")) (some (""))
        (some ("f")) (some ("g"))).spin2test = none ∨
      (ConfigDoc.mk (some ("a")) (some ("b")) (some ("c")) (some ("d")) (some (""))
        (some ("f")) (some ("g"))).rtems = none ∨
      (ConfigDoc.mk (some ("a")) (some ("b")) (some ("c")) (some ("d")) (some (""))
        (some ("f")) (some ("g"))).rsb = none ∨
      (ConfigDoc.mk (some ("a")) (some ("b")) (some ("c")) (some ("d")) (some (""))
        (some ("f")) (some ("g"))).simulator = none ∨
      (ConfigDoc.mk (some ("a")) (some ("b")) (some ("c")) (some ("d")) (some (""))
        (some ("f")) (some ("g"))).testyaml = none ∨
      (ConfigDoc.mk (some ("a")) (some ("b")) (some ("c")) (some ("d")) (some (""))
        (some ("f")) (some ("g"))).testcode = none ∨
      (ConfigDoc.mk (some ("a")) (some ("b")) (some ("c")) (some ("d")) (some (""))
        (some ("f")) (some ("g"))).testexe = none ∨
      (ConfigDoc.mk (some ("a")) (some ("b")) (some ("c")) (some ("d")) (some (""))
        (some ("f")) (some ("g"))).spin2test = some ("") ∨
      (ConfigDoc.mk (some ("a")) (some ("b")) (some ("c")) (some ("d")) (some (""))
        (some ("f")) (some ("g"))).rtems = some ("") ∨
      (ConfigDoc.mk (some ("a")) (some ("b")) (some ("c")) (some ("d")) (some (""))
        (some ("f")) (some ("g"))).rsb = some ("") ∨
      (ConfigDoc.mk (some ("a")) (some ("b")) (some ("c")) (some ("d")) (some (""))
        (some ("f")) (some ("g"))).simulator = some ("") ∨
      (ConfigDoc.mk (some ("a")) (some ("b")) (some ("c")) (some ("d")) (some (""))
        (some ("f")) (some ("g"))).testyaml = some ("") ∨
      (ConfigDoc.mk (some ("a")) (some ("b")) (some ("c")) (some ("d")) (some (""))
        (some ("f")) (some ("g"))).testexe = some ("")) ∧
    (loadConfig (ConfigDoc.mk (some ("a")) (some ("b")) (some ("c")) (some ("d")) (some (""))
      (some ("f")) (some ("g")))).dispatches = false :=
  ⟨by decide, c3_amended_startup_check _ (by decide)⟩

/-! ### C5, C1 -/

/-- C5: when the readiness check passes and the trail-file count after the
checker run is exactly 1, `generate` produces exactly one spin-summary
file with the unindexed name `model.spn` (by a bare replay, no selector),
invokes the generator exactly once with only the model identifier, and
exits immediately with success status (`sys.exit(0)`). -/
theorem c5_single_trail (present : FName → Bool) (model : FName) (dirAfter : List FName)
    (hready : (readinessCheck present model).2 = true)
    (h1 : trailCount model dirAfter = 1) :
    (generate present model dirAfter).replays = [(none, model ++ (".spn").toList)] ∧
    (generate present model dirAfter).genCalls = [(model, none)] ∧
    (generate present model dirAfter).exitCode = some 0 := by
  simp [generate, hready, h1]

/-- Witness for C5 at a concrete model with one trail file. -/
theorem c5_single_trail_witness :
    (readinessCheck (fun _ => true) (("m").toList)).2 = true ∧
    trailCount (("m").toList) [("m.trail").toList] = 1 ∧
    ((generate (fun _ => true) (("m").toList) [("m.trail").toList]).replays =
        [(none, ("m.spn").toList)] ∧
      (generate (fun _ => true) (("m").toList) [("m.trail").toList]).genCalls =
        [(("m").toList, none)] ∧
      (generate (fun _ => true) (("m").toList) [("m.trail").toList]).exitCode = some 0) :=
  ⟨by decide, by decide,
    c5_single_trail (fun _ => true) (("m").toList) [("m.trail").toList] (by decide) (by decide)⟩

/-- C1: when the readiness check passes and the trail count N after the
checker run is not exactly 1, `generate` replays, for each i from 0 to
N-1, trail i+1 (the 1-based selector) into the 0-based-offset summary file
`model-<i>.spn`, and invokes the generator with the model identifier and
the 0-based offset i as second argument; for N = 0 no replay and no
generator call occurs and the run ends normally, not as an error. -/
theorem c1_nonsingular_trails (present : FName → Bool) (model : FName) (dirAfter : List FName)
    (hready : (readinessCheck present model).2 = true)
    (hn : trailCount model dirAfter ≠ 1) :
    (generate present model dirAfter).replays =
      (List.range (trailCount model dirAfter)).map
        (fun i => (some (i + 1), spnIndexed model i)) ∧
    (generate present model dirAfter).genCalls =
      (List.range (trailCount model dirAfter)).map (fun i => (model, some i)) ∧
    (generate present model dirAfter).exitCode = none ∧
    (trailCount model dirAfter = 0 →
      (generate present model dirAfter).replays = [] ∧
      (generate present model dirAfter).genCalls = []) := by
  refine ⟨?_, ?_, ?_, ?_⟩ <;> simp [generate, hready, hn]

/-- Witness for C1 at a concrete model with three trail files (and, via
the last conjunct, hypotheses dischargeable at zero trails as well). -/
theorem c1_nonsingular_trails_witness :
    (readinessCheck (fun _ => true) (("m").toList)).2 = true ∧
    trailCount (("m").toList)
      [("m1.trail").toList, ("m2.trail").toList, ("m3.trail").toList] ≠ 1 ∧
    (generate (fun _ => true) (("m").toList)
        [("m1.trail").toList, ("m2.trail").toList, ("m3.trail").toList]).replays =
      [(some 1, ("m-0.spn").toList), (some 2, ("m-1.spn").toList),
        (some 3, ("m-2.spn").toList)] ∧
    (generate (fun _ => true) (("m").toList)
        [("m1.trail").toList, ("m2.trail").toList, ("m3.trail").toList]).genCalls =
      [(("m").toList, some 0), (("m").toList, some 1), (("m").toList, some 2)] ∧
    (generate (fun _ => true) (("m").toList)
        [("m1.trail").toList, ("m2.trail").toList, ("m3.trail").toList]).exitCode = none := by
  have h := c1_nonsingular_trails (fun _ => true) (("m").toList)
    [("m1.trail").toList, ("m2.trail").toList, ("m3.trail").toList] (by decide) (by decide)
  exact ⟨by decide, by decide, h.1.trans (by decide), h.2.1.trans (by decide), h.2.2.1⟩

/-! ### C4 -/

/-- C4 counterexample: with exactly the description file `m.pml` and the
run header `m-run.h` missing (two distinct files), the readiness check
prints the same message twice — the run header's cause is the word-for-word
duplicate of the description file's — so the printed causes are not
distinct per missing file as the claim states. -/
theorem c4_counterexample :
    (("m.pml").toList : FName) ≠ ("m-run.h").toList ∧
    (readinessCheck (fun f => !(f == ("m.pml").toList || f == ("m-run.h").toList))
        (("m").toList)).1 =
      [("Promela file does not exist for model" : String),
        "Promela file does not exist for model"] ∧
    ¬ ((readinessCheck (fun f => !(f == ("m.pml").toList || f == ("m-run.h").toList))
        (("m").toList)).1).Nodup := by
  decide

/-- C4 amended: for every model and every subset S of the five Readiness
Set files missing on disk, the check examines all five files without
short-circuiting and prints, in the fixed file order, one specific message
for each file of S and only those (though the messages are not pairwise
distinct: the run header reuses the description file's message); if S is
empty, generation proceeds to the checker run, and otherwise `generate`
stops with `sys.exit(1)` before spawning any external process. -/
theorem c4_readiness_enumerates (present : FName → Bool) (model : FName)
    (dirAfter : List FName) :
    (readinessCheck present model).1 =
      ((requiredFiles model).filter (fun p => !(present p.1))).map (fun p => p.2) ∧
    ((readinessCheck present model).2 = true ↔
      ∀ p ∈ requiredFiles model, present p.1 = true) ∧
    ((readinessCheck present model).2 = false →
      (generate present model dirAfter).exitCode = some 1 ∧
      (generate present model dirAfter).checkerRun = false ∧
      (generate present model dirAfter).replays = [] ∧
      (generate present model dirAfter).genCalls = []) ∧
    ((readinessCheck present model).2 = true →
      (generate present model dirAfter).checkerRun = true) := by
  cases h₁ : present (model ++ (".pml").toList) <;>
    cases h₂ : present (model ++ ("-pre.h").toList) <;>
    cases h₃ : present (model ++ ("-post.h").toList) <;>
    cases h₄ : present (model ++ ("-run.h").toList) <;>
    cases h₅ : present (model ++ ("-rfn.yml").toList) <;>
    simp_all [readinessCheck, requiredFiles, generate]
  split <;> rfl

/-- Witness for C4's amended theorem: with only the refinement file
missing, `generate` aborts with exit status 1. -/
theorem c4_readiness_enumerates_witness :
    (generate (fun f => decide (f ≠ ("m-rfn.yml").toList)) (("m").toList) []).exitCode =
      some 1 :=
  ((c4_readiness_enumerates (fun f => decide (f ≠ ("m-rfn.yml").toList))
      (("m").toList) []).2.2.1 (by decide)).1

/-! ### Clean membership lemmas -/

lemma mem_clean {f : FName} {model : FName} {d : List FName} :
    f ∈ clean model d ↔ f ∈ d ∧ f ∉ cleanTargets model d := by
  simp [clean]

lemma mem_cleanTargets {g model : FName} {d : List FName} :
    g ∈ cleanTargets model d ↔
      g ∈ d ∧ (g = ("pan").toList ∨ globMatch model (".trail").toList g = true ∨
        globMatch model (".spn").toList g = true ∨
        (if trailCount model d = 1 then g = ("tr-").toList ++ model ++ (".c").toList
         else globMatch (("tr-").toList ++ model ++ ("-").toList) (".c").toList g = true)) := by
  have hlen : (d.filter (fun f => globMatch model (".trail").toList f)).length =
      trailCount model d := rfl
  by_cases hc : trailCount model d = 1 <;>
    · rw [cleanTargets]
      simp only [hlen, hc, if_true, if_false, reduceIte, List.mem_append, List.mem_filter,
        decide_eq_true_eq]
      tauto

/-! ### C10 -/

/-- C10: `clean model` deletes at most the `pan` file, files matching
`model*.trail`, files matching `model*.spn`, and `tr-model`-stem `.c`
sources — the unindexed `tr-model.c` when exactly one trail file currently
exists, the indexed `tr-model-*.c` matches otherwise; it never deletes
`tc-model*.c` test-case sources or `tr-model*.h` headers, which remain in
the directory after cleanup. -/
theorem c10_clean_frame (m : FName) (d : List FName) (f : FName) (hf : f ∈ d) :
    (f ∉ clean m d →
      f = ("pan").toList ∨ globMatch m (".trail").toList f = true ∨
      globMatch m (".spn").toList f = true ∨
      (if trailCount m d = 1 then f = ("tr-").toList ++ m ++ (".c").toList
       else globMatch (("tr-").toList ++ m ++ ("-").toList) (".c").toList f = true)) ∧
    (tccPat m f = true → f ∈ clean m d) ∧
    (trhPat m f = true → f ∈ clean m d) := by
  refine ⟨?_, ?_, ?_⟩
  · intro hdel
    have hT : f ∈ cleanTargets m d := by
      by_contra hT
      exact hdel (mem_clean.mpr ⟨hf, hT⟩)
    exact (mem_cleanTargets.mp hT).2
  · intro htcc
    obtain ⟨hpre, hsuf, -⟩ := globMatch_eq_true.mp htcc
    refine mem_clean.mpr ⟨hf, fun hT => ?_⟩
    rcases (mem_cleanTargets.mp hT).2 with hpan | htr | hspn | hif
    · have hpre2 : ('p' :: ['a', 'n']) <+: f := by
        rw [hpan]
        exact List.prefix_refl _
      exact absurd (pfx_head_eq 't' 'p' _ _ f hpre hpre2) (by decide)
    · obtain ⟨-, hsuf2, -⟩ := globMatch_eq_true.mp htr
      exact absurd (sfx_last_eq 'c' 'l' ['.'] (['.', 't', 'r', 'a', 'i']) f hsuf hsuf2)
        (by decide)
    · obtain ⟨-, hsuf2, -⟩ := globMatch_eq_true.mp hspn
      exact absurd (sfx_last_eq 'c' 'n' ['.'] (['.', 's', 'p']) f hsuf hsuf2)
        (by decide)
    · by_cases hc : trailCount m d = 1
      · rw [if_pos hc] at hif
        have hpre2 : ('t' :: 'r' :: '-' :: m) <+: f :=
          ⟨(".c").toList, by rw [hif]; simp⟩
        exact absurd (pfx_second_eq 't' 'c' 't' 'r' _ _ f hpre hpre2).2 (by decide)
      · rw [if_neg hc] at hif
        obtain ⟨hpre2, -, -⟩ := globMatch_eq_true.mp hif
        exact absurd (pfx_second_eq 't' 'c' 't' 'r' _ _ f hpre hpre2).2 (by decide)
  · intro htrh
    obtain ⟨hpre, hsuf, -⟩ := globMatch_eq_true.mp htrh
    refine mem_clean.mpr ⟨hf, fun hT => ?_⟩
    rcases (mem_cleanTargets.mp hT).2 with hpan | htr | hspn | hif
    · have hpre2 : ('p' :: ['a', 'n']) <+: f := by
        rw [hpan]
        exact List.prefix_refl _
      exact absurd (pfx_head_eq 't' 'p' _ _ f hpre hpre2) (by decide)
    · obtain ⟨-, hsuf2, -⟩ := globMatch_eq_true.mp htr
      exact absurd (sfx_last_eq 'h' 'l' ['.'] (['.', 't', 'r', 'a', 'i']) f hsuf hsuf2)
        (by decide)
    · obtain ⟨-, hsuf2, -⟩ := globMatch_eq_true.mp hspn
      exact absurd (sfx_last_eq 'h' 'n' ['.'] (['.', 's', 'p']) f hsuf hsuf2)
        (by decide)
    · by_cases hc : trailCount m d = 1
      · rw [if_pos hc] at hif
        have hsuf2 : (['.'] ++ ['c']) <:+ f :=
          ⟨("tr-").toList ++ m, by rw [hif]; simp⟩
        exact absurd (sfx_last_eq 'h' 'c' ['.'] ['.'] f hsuf hsuf2) (by decide)
      · rw [if_neg hc] at hif
        obtain ⟨-, hsuf2, -⟩ := globMatch_eq_true.mp hif
        exact absurd (sfx_last_eq 'h' 'c' ['.'] ['.'] f hsuf hsuf2) (by decide)

/-- Witness for C10 at a concrete directory: the `tc-m1.c` test case
survives `clean m`. -/
theorem c10_clean_frame_witness :
    (("tc-m1.c").toList : FName) ∈
      [("tc-m1.c").toList, ("tr-m.h").toList, ("m1.trail").toList, ("pan").toList] ∧
    ("tc-m1.c").toList ∈ clean (("m").toList)
      [("tc-m1.c").toList, ("tr-m.h").toList, ("m1.trail").toList, ("pan").toList] :=
  ⟨by decide,
    (c10_clean_frame (("m").toList)
      [("tc-m1.c").toList, ("tr-m.h").toList, ("m1.trail").toList, ("pan").toList]
      (("tc-m1.c").toList) (by decide)).2.1 (by decide)⟩

/-! ### C9 -/

/-- C9 counterexample: `foo` is a proper prefix of the model identifier
`foobar`, yet `clean foo` on a directory holding `foobar`'s trail file and
its generated source `tr-foobar-0.c` deletes only the trail file: the
`tr-` source of the prefix-extending model does **not** match `clean`'s
`tr-foo-*.c` (or `tr-foo.c`) glob, so the claim that clean(m) deletes
m'-prefixed tr- source files fails. -/
theorem c9_counterexample :
    (("foo").toList <+: ("foobar").toList ∧ ("foo").toList ≠ ("foobar").toList) ∧
    clean (("foo").toList) [("foobar.trail").toList, ("tr-foobar-0.c").toList] =
      [("tr-foobar-0.c").toList] := by
  decide

/-- C9 amended: per-model operations are not isolated between
prefix-sharing models, but only through the trail and spn globs: for every
model `m`, proper extension `m ++ ext` (`ext ≠ []`) and any suffix part
`x`, the extension's trail files `m++ext++x++".trail"` match `clean m`'s
trail glob (and are deleted when present, and are counted by `generate m`'s
trail count), and its `.spn` files likewise; the extension's `tr-` source
files `tr-<m++ext><y>.c`, in contrast, are deleted by `clean m` exactly
when the current trail count is not 1 and the extension begins with a
hyphen: the fifth conjunct shows such hyphen-initial files are deleted in
the plural branch, and the sixth that a deleted extension `tr-` source
forces the plural branch and a hyphen-initial extension. -/
theorem c9_amended_isolation (m ext rest x y : FName) (d : List FName) (hne : ext ≠ []) :
    globMatch m (".trail").toList (m ++ ext ++ x ++ (".trail").toList) = true ∧
    globMatch m (".spn").toList (m ++ ext ++ x ++ (".spn").toList) = true ∧
    (m ++ ext ++ x ++ (".trail").toList ∈ d →
      m ++ ext ++ x ++ (".trail").toList ∉ clean m d ∧ 0 < trailCount m d) ∧
    (m ++ ext ++ x ++ (".spn").toList ∈ d → m ++ ext ++ x ++ (".spn").toList ∉ clean m d) ∧
    (trailCount m d ≠ 1 →
      ("tr-").toList ++ m ++ ('-' :: rest) ++ y ++ (".c").toList ∈ d →
      ("tr-").toList ++ m ++ ('-' :: rest) ++ y ++ (".c").toList ∉ clean m d) ∧
    (("tr-").toList ++ (m ++ ext) ++ y ++ (".c").toList ∈ d →
      ("tr-").toList ++ (m ++ ext) ++ y ++ (".c").toList ∉ clean m d →
      trailCount m d ≠ 1 ∧ ext.head? = some '-') := by
  have htrail : globMatch m (".trail").toList (m ++ ext ++ x ++ (".trail").toList) = true := by
    have := globMatch_parts m (ext ++ x) (".trail").toList
    simpa [List.append_assoc] using this
  have hspn : globMatch m (".spn").toList (m ++ ext ++ x ++ (".spn").toList) = true := by
    have := globMatch_parts m (ext ++ x) (".spn").toList
    simpa [List.append_assoc] using this
  refine ⟨htrail, hspn, ?_, ?_, ?_, ?_⟩
  · intro hmem
    constructor
    · intro hcl
      exact (mem_clean.mp hcl).2 (mem_cleanTargets.mpr ⟨hmem, Or.inr (Or.inl htrail)⟩)
    · have : m ++ ext ++ x ++ (".trail").toList ∈
          d.filter (fun f => globMatch m (".trail").toList f) :=
        List.mem_filter.mpr ⟨hmem, htrail⟩
      exact List.length_pos.mpr (List.ne_nil_of_mem this)
  · intro hmem hcl
    exact (mem_clean.mp hcl).2 (mem_cleanTargets.mpr ⟨hmem, Or.inr (Or.inr (Or.inl hspn))⟩)
  · intro hn hmem hcl
    have hglob : globMatch (("tr-").toList ++ m ++ ("-").toList) (".c").toList
        (("tr-").toList ++ m ++ ('-' :: rest) ++ y ++ (".c").toList) = true := by
      have := globMatch_parts (("tr-").toList ++ m ++ ("-").toList) (rest ++ y) (".c").toList
      simpa [List.append_assoc] using this
    refine (mem_clean.mp hcl).2 (mem_cleanTargets.mpr ⟨hmem, Or.inr (Or.inr (Or.inr ?_))⟩)
    rw [if_neg hn]
    exact hglob
  · intro hmem hdel
    have hT : ("tr-").toList ++ (m ++ ext) ++ y ++ (".c").toList ∈ cleanTargets m d := by
      by_contra hT
      exact hdel (mem_clean.mpr ⟨hmem, hT⟩)
    have hpreF : ('t' :: 'r' :: '-' :: (m ++ ext)) <+:
        ("tr-").toList ++ (m ++ ext) ++ y ++ (".c").toList :=
      ⟨y ++ (".c").toList, by simp⟩
    have hsufF : (['.'] ++ ['c']) <:+ ("tr-").toList ++ (m ++ ext) ++ y ++ (".c").toList :=
      ⟨("tr-").toList ++ (m ++ ext) ++ y, by simp⟩
    rcases (mem_cleanTargets.mp hT).2 with hpan | htr | hsp | hif
    · have hpre2 : ('p' :: ['a', 'n']) <+:
          ("tr-").toList ++ (m ++ ext) ++ y ++ (".c").toList := by
        rw [hpan]
        exact List.prefix_refl _
      exact absurd (pfx_head_eq 't' 'p' _ _ _ hpreF hpre2) (by decide)
    · obtain ⟨-, hs2, -⟩ := globMatch_eq_true.mp htr
      exact absurd (sfx_last_eq 'c' 'l' ['.'] (['.', 't', 'r', 'a', 'i']) _ hsufF hs2)
        (by decide)
    · obtain ⟨-, hs2, -⟩ := globMatch_eq_true.mp hsp
      exact absurd (sfx_last_eq 'c' 'n' ['.'] (['.', 's', 'p']) _ hsufF hs2) (by decide)
    · by_cases hc : trailCount m d = 1
      · rw [if_pos hc] at hif
        have hlen := congrArg List.length hif
        simp [List.length_append] at hlen
        exact absurd (List.length_eq_zero.mp (by omega)) hne
      · rw [if_neg hc] at hif
        obtain ⟨hp2, -, -⟩ := globMatch_eq_true.mp hif
        refine ⟨hc, ?_⟩
        have hF : (("tr-").toList ++ (m ++ ext)) ++ y ++ (".c").toList =
            (("tr-").toList ++ m) ++ (ext ++ (y ++ (".c").toList)) := by
          simp [List.append_assoc]
        rw [hF] at hp2
        have h3 : (("-").toList) <+: ext ++ (y ++ (".c").toList) :=
          (List.prefix_append_right_inj _).mp hp2
        cases ext with
        | nil => exact absurd rfl hne
        | cons e₀ tl =>
          have hh : '-' = e₀ :=
            pfx_head_eq '-' e₀ _ _ _ h3 (List.prefix_refl _)
          rw [← hh]
          rfl

/-- Witness for C9's amended theorem: model `foo`, extension model
`foo-x`, a directory with two of its trail files and its unindexed source
`tr-foo-x.c`; `clean foo` removes the foreign trail file and (the count
being 2 ≠ 1) the hyphen-extension `tr-` source as well, and that deletion
in turn forces the plural branch and the hyphen-initial extension. -/
theorem c9_amended_isolation_witness :
    (("-x").toList : FName) ≠ [] ∧
    (("foo-x.trail").toList ∉ clean (("foo").toList)
        [("foo-x.trail").toList, ("foo-x9.trail").toList, ("tr-foo-x.c").toList] ∧
      0 < trailCount (("foo").toList)
        [("foo-x.trail").toList, ("foo-x9.trail").toList, ("tr-foo-x.c").toList]) ∧
    ("tr-foo-x.c").toList ∉ clean (("foo").toList)
      [("foo-x.trail").toList, ("foo-x9.trail").toList, ("tr-foo-x.c").toList] ∧
    (trailCount (("foo").toList)
        [("foo-x.trail").toList, ("foo-x9.trail").toList, ("tr-foo-x.c").toList] ≠ 1 ∧
      (("-x").toList : FName).head? = some '-') := by
  have h := c9_amended_isolation (("foo").toList) (("-x").toList) (("x").toList) [] []
    [("foo-x.trail").toList, ("foo-x9.trail").toList, ("tr-foo-x.c").toList] (by decide)
  exact ⟨by decide, h.2.2.1 (by decide), h.2.2.2.2.1 (by decide) (by decide),
    h.2.2.2.2.2 (by decide) (by decide)⟩

/-! ### Copy machinery for C2, C7 -/

lemma copy_fst_def (model : FName) (work target : List Entry) (man : Manifest) :
    (copy model work target man).1 =
      (work.filter (fun e => trcPat model e.1) ++ work.filter (fun e => trhPat model e.1) ++
        work.filter (fun e => tccPat model e.1)).foldl writeFile
        (target.filter (fun e => !(copyPat model e.1))) := rfl

lemma copy_snd_def (model : FName) (work target : List Entry) (man : Manifest) :
    (copy model work target man).2 =
      ⟨sortedSet (man.source ++
        (work.filter (fun e => trcPat model e.1) ++
          work.filter (fun e => tccPat model e.1)).map
          (fun e => ("testsuites/validation/").toList ++ e.1)),
       man.rest⟩ := rfl

lemma trc_trh_clash {model f : FName} (h₁ : trcPat model f = true)
    (h₂ : trhPat model f = true) : False := by
  obtain ⟨-, hs₁, -⟩ := globMatch_eq_true.mp h₁
  obtain ⟨-, hs₂, -⟩ := globMatch_eq_true.mp h₂
  exact absurd (sfx_last_eq 'c' 'h' ['.'] ['.'] f hs₁ hs₂) (by decide)

lemma trc_tcc_clash {model f : FName} (h₁ : trcPat model f = true)
    (h₂ : tccPat model f = true) : False := by
  obtain ⟨hp₁, -, -⟩ := globMatch_eq_true.mp h₁
  obtain ⟨hp₂, -, -⟩ := globMatch_eq_true.mp h₂
  exact absurd (pfx_second_eq 't' 'r' 't' 'c' _ _ f hp₁ hp₂).2 (by decide)

lemma trh_tcc_clash {model f : FName} (h₁ : trhPat model f = true)
    (h₂ : tccPat model f = true) : False := by
  obtain ⟨hp₁, -, -⟩ := globMatch_eq_true.mp h₁
  obtain ⟨hp₂, -, -⟩ := globMatch_eq_true.mp h₂
  exact absurd (pfx_second_eq 't' 'r' 't' 'c' _ _ f hp₁ hp₂).2 (by decide)

lemma mem_newFiles {model : FName} {work : List Entry} {e : Entry} :
    e ∈ (work.filter (fun e => trcPat model e.1) ++ work.filter (fun e => trhPat model e.1) ++
        work.filter (fun e => tccPat model e.1)) ↔
      e ∈ work ∧ copyPat model e.1 = true := by
  simp only [List.mem_append, List.mem_filter, copyPat, Bool.or_eq_true]
  tauto

lemma foldl_writeFile_eq_append (l : List Entry) (t : List Entry)
    (hdisj : ∀ e ∈ l, ∀ x ∈ t, e.1 ≠ x.1)
    (hnd : (l.map Prod.fst).Nodup) :
    l.foldl writeFile t = t ++ l := by
  induction l generalizing t with
  | nil => simp
  | cons e l ih =>
    simp only [List.map_cons, List.nodup_cons] at hnd
    have hany : t.any (fun x => decide (x.1 = e.1)) = false := by
      rw [List.any_eq_false]
      intro x hx
      simp only [decide_eq_true_eq]
      exact fun hc => hdisj e (List.mem_cons_self e l) x hx hc.symm
    have hw : writeFile t e = t ++ [e] := by
      rw [writeFile, hany]
      simp
    rw [List.foldl_cons, hw, ih]
    · simp
    · intro e' he' x hx
      rcases List.mem_append.mp hx with hx | hx
      · exact hdisj e' (List.mem_cons_of_mem _ he') x hx
      · rcases List.mem_singleton.mp hx with rfl
        intro hcontra
        exact hnd.1 (hcontra ▸ List.mem_map_of_mem Prod.fst he')
    · exact hnd.2

lemma newFiles_nodup (model : FName) (work : List Entry)
    (hw : (work.map Prod.fst).Nodup) :
    ((work.filter (fun e => trcPat model e.1) ++ work.filter (fun e => trhPat model e.1) ++
        work.filter (fun e => tccPat model e.1)).map Prod.fst).Nodup := by
  have hsub : ∀ p : Entry → Bool,
      ((work.filter p).map Prod.fst).Nodup := by
    intro p
    exact List.Nodup.sublist (List.Sublist.map _ (List.filter_sublist work)) hw
  have hmemf : ∀ (p : Entry → Bool) (a : FName),
      a ∈ (work.filter p).map Prod.fst → ∃ e ∈ work, e.1 = a ∧ p e = true := by
    intro p a ha
    obtain ⟨e, he, rfl⟩ := List.mem_map.mp ha
    exact ⟨e, (List.mem_filter.mp he).1, rfl, (List.mem_filter.mp he).2⟩
  rw [List.map_append, List.map_append, List.nodup_append, List.nodup_append]
  refine ⟨⟨hsub _, hsub _, ?_⟩, hsub _, ?_⟩
  · intro a ha hb
    obtain ⟨e₁, -, he₁, hp₁⟩ := hmemf _ a ha
    obtain ⟨e₂, -, he₂, hp₂⟩ := hmemf _ a hb
    exact trc_trh_clash (he₁ ▸ hp₁) (he₂ ▸ hp₂)
  · intro a ha hb
    obtain ⟨e₂, -, he₂, hp₂⟩ := hmemf _ a hb
    rcases List.mem_append.mp ha with ha | ha
    · obtain ⟨e₁, -, he₁, hp₁⟩ := hmemf _ a ha
      exact trc_tcc_clash (he₁ ▸ hp₁) (he₂ ▸ hp₂)
    · obtain ⟨e₁, -, he₁, hp₁⟩ := hmemf _ a ha
      exact trh_tcc_clash (he₁ ▸ hp₁) (he₂ ▸ hp₂)

lemma copy_fst_eq (model : FName) (work target : List Entry) (man : Manifest)
    (hw : (work.map Prod.fst).Nodup) :
    (copy model work target man).1 =
      target.filter (fun e => !(copyPat model e.1)) ++
      (work.filter (fun e => trcPat model e.1) ++ work.filter (fun e => trhPat model e.1) ++
        work.filter (fun e => tccPat model e.1)) := by
  rw [copy_fst_def]
  apply foldl_writeFile_eq_append
  · intro e he x hx
    have hepat : copyPat model e.1 = true := (mem_newFiles.mp he).2
    have hxpat : copyPat model x.1 = false := by
      have := (List.mem_filter.mp hx).2
      simpa using this
    intro hc
    rw [hc, hxpat] at hepat
    exact Bool.false_ne_true hepat
  · exact newFiles_nodup model work hw

lemma copy_source_def (model : FName) (work target : List Entry) (man : Manifest) :
    (copy model work target man).2.source =
      sortedSet (man.source ++
        (work.filter (fun e => trcPat model e.1) ++
          work.filter (fun e => tccPat model e.1)).map
          (fun e => ("testsuites/validation/").toList ++ e.1)) := rfl

/-! ### C2 -/

/-- C2: after `copy` for a model (with distinct file names in the working
directory, as on a real file system), the target directory's set of
entries matching the model's `tr-*.c`, `tr-*.h` and `tc-*.c` patterns
exactly equals the freshly generated set from the working directory (every
previously present matching entry, e.g. a stale `tr-model-old.c` not in
the new set, is gone), and the Manifest's source list holds exactly its
prior entries together with the relative target-tree paths of the copied
`.c` files, deduplicated and sorted. -/
theorem c2_sync_exact (model : FName) (work target : List Entry) (man : Manifest)
    (hw : (work.map Prod.fst).Nodup) :
    (∀ e : Entry, (e ∈ (copy model work target man).1 ∧ copyPat model e.1 = true) ↔
      (e ∈ work ∧ copyPat model e.1 = true)) ∧
    (∀ p : FName, p ∈ (copy model work target man).2.source ↔
      (p ∈ man.source ∨ ∃ e ∈ work, (trcPat model e.1 = true ∨ tccPat model e.1 = true) ∧
        p = ("testsuites/validation/").toList ++ e.1)) ∧
    List.Sorted (· ≤ ·) ((copy model work target man).2.source) ∧
    ((copy model work target man).2.source).Nodup := by
  refine ⟨?_, ?_, sortedSet_sorted _, sortedSet_nodup _⟩
  · intro e
    rw [copy_fst_eq model work target man hw]
    constructor
    · rintro ⟨hmem, hpat⟩
      rcases List.mem_append.mp hmem with h | h
      · have : copyPat model e.1 = false := by
          simpa using (List.mem_filter.mp h).2
        rw [this] at hpat
        exact absurd hpat (by decide)
      · exact ⟨(mem_newFiles.mp h).1, hpat⟩
    · rintro ⟨hmem, hpat⟩
      exact ⟨List.mem_append.mpr (Or.inr (mem_newFiles.mpr ⟨hmem, hpat⟩)), hpat⟩
  · intro p
    rw [copy_source_def]
    simp only [mem_sortedSet, List.mem_append, List.mem_map, List.mem_filter]
    constructor
    · rintro (h | ⟨e, he, rfl⟩)
      · exact Or.inl h
      · rcases he with he | he
        · exact Or.inr ⟨e, he.1, Or.inl he.2, rfl⟩
        · exact Or.inr ⟨e, he.1, Or.inr he.2, rfl⟩
    · rintro (h | ⟨e, he, hp, rfl⟩)
      · exact Or.inl h
      · rcases hp with hp | hp
        · exact Or.inr ⟨e, Or.inl ⟨he, hp⟩, rfl⟩
        · exact Or.inr ⟨e, Or.inr ⟨he, hp⟩, rfl⟩

/-- Witness for C2 at a concrete synchronization: working directory with
one generated source and one unrelated file, a target holding a stale
`tr-m-old.c`, and a manifest with one prior entry. -/
theorem c2_sync_exact_witness :
    (([((("tr-m.c").toList : FName), ("new").toList),
        (("notes.txt").toList, ("x").toList)].map Prod.fst).Nodup) ∧
    ((((("tr-m-old.c").toList : FName), (("stale").toList : FName)) ∈
        (copy (("m").toList)
          [((("tr-m.c").toList : FName), ("new").toList),
            (("notes.txt").toList, ("x").toList)]
          [((("tr-m-old.c").toList : FName), ("stale").toList)]
          ⟨[("keep.c").toList], []⟩).1 ∧
      copyPat (("m").toList) ("tr-m-old.c").toList = true) ↔
      (((("tr-m-old.c").toList : FName), (("stale").toList : FName)) ∈
        ([((("tr-m.c").toList : FName), ("new").toList),
          (("notes.txt").toList, ("x").toList)] : List Entry) ∧
      copyPat (("m").toList) ("tr-m-old.c").toList = true)) ∧
    List.Sorted (· ≤ ·) ((copy (("m").toList)
      [((("tr-m.c").toList : FName), ("new").toList),
        (("notes.txt").toList, ("x").toList)]
      [((("tr-m-old.c").toList : FName), ("stale").toList)]
      ⟨[("keep.c").toList], []⟩).2.source) := by
  have h := c2_sync_exact (("m").toList)
    [((("tr-m.c").toList : FName), ("new").toList), (("notes.txt").toList, ("x").toList)]
    [((("tr-m-old.c").toList : FName), ("stale").toList)]
    ⟨[("keep.c").toList], []⟩ (by decide)
  exact ⟨by decide, h.1 ((("tr-m-old.c").toList : FName), ("stale").toList), h.2.2.1⟩

/-! ### C7 -/

/-- C7: synchronization is idempotent: running `copy` a second time with
the same working-directory file set (distinct file names assumed, as on a
real file system) leaves both the target directory and the Manifest —
in particular its sorted, deduplicated source list — exactly as after the
first run; no duplicate entries are appended and no error arises from the
duplicates. -/
theorem c7_sync_idempotent (model : FName) (work target : List Entry) (man : Manifest)
    (hw : (work.map Prod.fst).Nodup) :
    copy model work (copy model work target man).1 (copy model work target man).2 =
      copy model work target man := by
  have hfst : (copy model work (copy model work target man).1
      (copy model work target man).2).1 = (copy model work target man).1 := by
    rw [copy_fst_eq model work _ _ hw, copy_fst_eq model work target man hw,
      List.filter_append]
    have hTT : (target.filter (fun e => !(copyPat model e.1))).filter
        (fun e => !(copyPat model e.1)) = target.filter (fun e => !(copyPat model e.1)) :=
      List.filter_eq_self.mpr (fun e he => (List.mem_filter.mp he).2)
    have hN : ((work.filter (fun e => trcPat model e.1) ++
        work.filter (fun e => trhPat model e.1) ++
        work.filter (fun e => tccPat model e.1)).filter
          (fun e => !(copyPat model e.1))) = [] := by
      rw [List.filter_eq_nil_iff]
      intro e he
      simp [(mem_newFiles.mp he).2]
    rw [hTT, hN, List.append_nil]
  have hsnd : (copy model work (copy model work target man).1
      (copy model work target man).2).2 = (copy model work target man).2 := by
    rw [copy_snd_def model work, copy_snd_def model work target man]
    simp only []
    congr 1
    apply sortedSet_congr
    intro a
    simp only [List.mem_append, mem_sortedSet]
    tauto
  calc copy model work (copy model work target man).1 (copy model work target man).2
      = ((copy model work (copy model work target man).1
          (copy model work target man).2).1,
         (copy model work (copy model work target man).1
          (copy model work target man).2).2) := rfl
    _ = ((copy model work target man).1, (copy model work target man).2) := by
        rw [hfst, hsnd]
    _ = copy model work target man := rfl

/-- Witness for C7 at a concrete synchronization. -/
theorem c7_sync_idempotent_witness :
    (([((("tr-m.c").toList : FName), ("new").toList),
        (("tc-m2.c").toList, ("t").toList)].map Prod.fst).Nodup) ∧
    copy (("m").toList)
      [((("tr-m.c").toList : FName), ("new").toList), (("tc-m2.c").toList, ("t").toList)]
      (copy (("m").toList)
        [((("tr-m.c").toList : FName), ("new").toList), (("tc-m2.c").toList, ("t").toList)]
        [] ⟨[("keep.c").toList], []⟩).1
      (copy (("m").toList)
        [((("tr-m.c").toList : FName), ("new").toList), (("tc-m2.c").toList, ("t").toList)]
        [] ⟨[("keep.c").toList], []⟩).2 =
    copy (("m").toList)
      [((("tr-m.c").toList : FName), ("new").toList), (("tc-m2.c").toList, ("t").toList)]
      [] ⟨[("keep.c").toList], []⟩ :=
  ⟨by decide,
    c7_sync_idempotent (("m").toList)
      [((("tr-m.c").toList : FName), ("new").toList), (("tc-m2.c").toList, ("t").toList)]
      [] ⟨[("keep.c").toList], []⟩ (by decide)⟩
